import Mathlib

/-!
Verification of the project-context-to-md-file repository.

This development shallowly embeds the TypeScript source of the repository:
pure functions become Lean functions, the filesystem is an explicit tree
value, fallible filesystem walks return `Except`, and the single-threaded
event loop of the watcher/orchestrator is a step function on an explicit
state type.  Paths are modelled as plain strings given in resolved form
(`path.resolve` is the identity on them), `localeCompare` is modelled as
code-point comparison, and JavaScript `Array.prototype.sort` is modelled as
a stable sort consistent with the comparator.
-/

/-- JavaScript `String.prototype.includes`: substring containment. -/
def jsIncludes (s sub : String) : Bool := decide (sub.data <:+: s.data)

/-- Infix containment as a proposition, on the character lists. -/
def jsContains (s sub : String) : Prop := sub.data <:+: s.data

/-- JavaScript `String.prototype.startsWith`. -/
def jsStartsWith (s pre : String) : Bool := pre.data.isPrefixOf s.data

/-- JavaScript `String.prototype.endsWith`. -/
def jsEndsWith (s suf : String) : Bool := suf.data.reverse.isPrefixOf s.data.reverse

/-- JavaScript `String.prototype.toLowerCase` (ASCII, which is all the
source ever lowercases). -/
def jsToLower (s : String) : String := ⟨s.data.map Char.toLower⟩

/-- Strict lexicographic code-point order on character lists (the model of
a negative `localeCompare`). -/
def listLt : List Char → List Char → Bool
  | [], [] => false
  | [], _ :: _ => true
  | _ :: _, [] => false
  | a :: as, b :: bs => if a < b then true else if b < a then false else listLt as bs

/-- JavaScript `path.basename`: the final path component (paths are given
without trailing separators). -/
def pathBasename (p : String) : String :=
  ⟨(p.data.reverse.takeWhile (fun c => c != '/')).reverse⟩

/-- JavaScript `path.join dir name` for our already-normalised paths. -/
def pathJoin (dir name : String) : String := dir ++ "/" ++ name

/-- Position of the last `.` in a character list, if any (index from the
front). -/
def lastDotIdx (l : List Char) : Option Nat :=
  ((l.enum.filter (fun p => p.2 == '.')).getLast?).map (fun p => p.1)

/-- JavaScript `path.extname`: the suffix of the basename from its last dot,
except that a dot in the leading position yields no extension
(`extname ".gitignore" = ""`, `extname ".env.example" = ".example"`). -/
def pathExtname (p : String) : String :=
  let b := pathBasename p
  match lastDotIdx b.data with
  | none => ""
  | some 0 => ""
  | some i => ⟨b.data.drop i⟩

/-- JavaScript `path.relative root p`, for the case the collector produces:
`p` extends `root` by one or more components. -/
def pathRelative (root p : String) : String :=
  if (root ++ "/").data.isPrefixOf p.data then ⟨p.data.drop (root.length + 1)⟩ else p

/-- Two-digit zero-padded rendering of a number below 100. -/
def pad2 (n : Nat) : String :=
  if n < 10 then "0" ++ toString n else toString n

/-- Render `b / d` with two decimals, rounding to nearest (models
JavaScript `(b / d).toFixed(2)`; the exact binary-float rounding of ties is
immaterial to every claim, only the shape of the placeholder string is). -/
def fmtDiv2 (b d : Nat) : String :=
  let h := (b * 100 + d / 2) / d
  toString (h / 100) ++ "." ++ pad2 (h % 100)

/-- Source `getFileSize`: human-readable file size. -/
def getFileSize (bytes : Nat) : String :=
  if bytes < 1024 then toString bytes ++ " B"
  else if bytes < 1024 * 1024 then fmtDiv2 bytes 1024 ++ " KB"
  else if bytes < 1024 * 1024 * 1024 then fmtDiv2 bytes (1024 * 1024) ++ " MB"
  else fmtDiv2 bytes (1024 * 1024 * 1024) ++ " GB"

/-- Source `estimateTokens`: `Math.ceil(text.length / 4)`.  On a natural
length this ceiling is `(length + 3) / 4`; a theorem below proves the
equality with the rational ceiling. -/
def estimateTokens (text : String) : Nat := (text.length + 3) / 4

instance {ε α : Type} [DecidableEq ε] [DecidableEq α] : DecidableEq (Except ε α) :=
  fun x y =>
    match x, y with
    | .ok a, .ok b =>
      if h : a = b then isTrue (by rw [h]) else isFalse (fun hh => h (Except.ok.inj hh))
    | .error e, .error f =>
      if h : e = f then isTrue (by rw [h]) else isFalse (fun hh => h (Except.error.inj hh))
    | .ok _, .error _ => isFalse (fun hh => Except.noConfusion hh)
    | .error _, .ok _ => isFalse (fun hh => Except.noConfusion hh)

/-- Stable insertion used to model JavaScript `Array.prototype.sort` with a
comparator: `lt b a` means the comparator orders `b` strictly before `a`;
an element being inserted goes before every element the comparator does not
order strictly before it, so equal elements keep their original order. -/
def insertCmp (lt : α → α → Bool) (a : α) : List α → List α
  | [] => [a]
  | b :: l => if lt b a then b :: insertCmp lt a l else a :: b :: l

/-- Stable sort by a strict comparator (models `Array.prototype.sort`). -/
def sortCmp (lt : α → α → Bool) (l : List α) : List α :=
  l.foldr (insertCmp lt) []

/-- Source `shouldIgnore` ignore patterns (the current `context.ts`). -/
def ignorePatterns : List String :=
  ["node_modules", ".git", "dist", "build", "coverage", ".DS_Store", ".env",
   ".vscode", ".idea", "package-lock.json", "yarn.lock", ".next", "out", ".cache"]

/-- Source `shouldIgnore` binary/large extension list. -/
def skipExtensions : List String :=
  [".jpg", ".jpeg", ".png", ".gif", ".bmp", ".ico", ".webp", ".mp4", ".webm",
   ".mov", ".avi", ".mkv", ".mp3", ".wav", ".ogg", ".flac", ".zip", ".tar",
   ".gz", ".rar", ".7z", ".pdf", ".doc", ".docx", ".xls", ".xlsx", ".ppt",
   ".pptx", ".bin", ".exe", ".dll", ".so", ".dylib", ".ttf", ".otf", ".woff",
   ".woff2", ".data", ".model", ".pb"]

/-- Basenames that the hidden-file rule explicitly keeps. -/
def hiddenKeepList : List String := ["gitignore", "npmignore", "env.example"]

/-- The hidden-file branch of `shouldIgnore` in isolation: a basename is
dropped as a dotfile when it starts with a dot and does not end in one of
the keep-list names. -/
def hiddenFileExcluded (basename : String) : Bool :=
  jsStartsWith basename "." && !(hiddenKeepList.any (fun name => jsEndsWith basename name))

/-- Source `shouldIgnore` (current `context.ts`, lines 21-91): output-file
equality, binary extension, hidden-file, then substring ignore patterns.
`path.resolve` is modelled as the identity, paths being given resolved. -/
def shouldIgnore (filePath outputPath : String) : Bool :=
  if filePath = outputPath then true
  else
    let basename := pathBasename filePath
    let extension := jsToLower (pathExtname filePath)
    if skipExtensions.any (fun x => decide (x = extension)) then true
    else if hiddenFileExcluded basename then true
    else ignorePatterns.any (fun pat => jsIncludes filePath pat)

/-- Code extensions prioritised by the collector's per-directory sort. -/
def codeExtensions : List String :=
  [".js", ".ts", ".jsx", ".tsx", ".py", ".rb", ".go", ".java", ".c", ".cpp",
   ".cs", ".php"]

/-- Configuration names prioritised by the collector's per-directory sort. -/
def configFiles : List String :=
  ["package.json", "tsconfig.json", ".gitignore", "README.md", "Dockerfile"]

/-- The collector's per-directory comparator on entry names, as a strict
order (comparator value below zero): code files first, then configuration
files, then lexicographic (`localeCompare` modelled as code-point order). -/
def fileOrderLT (a b : String) : Bool :=
  let aExt := jsToLower (pathExtname a)
  let bExt := jsToLower (pathExtname b)
  let aIsCode := codeExtensions.any (fun x => decide (x = aExt))
  let bIsCode := codeExtensions.any (fun x => decide (x = bExt))
  if aIsCode && !bIsCode then true
  else if !aIsCode && bIsCode then false
  else
    let aIsConfig := configFiles.any (fun x => decide (x = a))
    let bIsConfig := configFiles.any (fun x => decide (x = b))
    if aIsConfig && !bIsConfig then true
    else if !aIsConfig && bIsConfig then false
    else listLt a.data b.data

/-- A snapshot of the watched directory tree.  A `file` carries its text,
its byte size as reported by `statSync`, and whether reading it fails; an
`unreadableDir` is a directory whose `readdirSync` throws. -/
inductive FSEntry where
  | file (name : String) (content : String) (size : Nat) (readErr : Bool)
  | dir (name : String) (entries : List FSEntry)
  | unreadableDir (name : String)

/-- Name of an entry as listed by its parent directory. -/
def FSEntry.name : FSEntry → String
  | .file n _ _ _ => n
  | .dir n _ => n
  | .unreadableDir n => n

/-- One collected `(path, content)` pair. -/
structure CollectedFile where
  path : String
  content : String
deriving DecidableEq, Repr

/-- Source `readFileContent`: a failing `statSync`/`readFileSync` is caught
and replaced by an error placeholder, an oversized file by a size
placeholder, otherwise the text is returned. -/
def readFileContent (content : String) (size : Nat) (readErr : Bool) : String :=
  if readErr then "[Error reading file: Error]"
  else if size > 1024 * 100 then "[File too large: " ++ getFileSize size ++ "]"
  else content

/-- The collector's loop over one (already sorted) directory listing.
`collectChild` is the recursive walk applied to subdirectories (one depth
level further down).  Mirrors the `for` loop of `collectFilesContent`:
break once the running token count reaches the budget, skip ignored paths,
recurse into directories threading the token count, and append a file only
when its tokens still fit. -/
def collectEntriesWith
    (collectChild : String → FSEntry → Nat → Except String (List CollectedFile × Nat))
    (outputPath : String) (maxTokens : Nat) (dirPath : String) :
    List FSEntry → Nat → Except String (List CollectedFile × Nat)
  | [], cur => .ok ([], cur)
  | e :: rest, cur =>
    if cur ≥ maxTokens then .ok ([], cur)
    else
      let filePath := pathJoin dirPath e.name
      if shouldIgnore filePath outputPath then
        collectEntriesWith collectChild outputPath maxTokens dirPath rest cur
      else
        match e with
        | .file _ content size readErr =>
          let c := readFileContent content size readErr
          let tokens := estimateTokens c
          if cur + tokens > maxTokens then
            collectEntriesWith collectChild outputPath maxTokens dirPath rest cur
          else
            match collectEntriesWith collectChild outputPath maxTokens dirPath rest
                (cur + tokens) with
            | .error err => .error err
            | .ok (more, fin) => .ok (⟨filePath, c⟩ :: more, fin)
        | _ =>
          match collectChild filePath e cur with
          | .error err => .error err
          | .ok (sub, newTok) =>
            match collectEntriesWith collectChild outputPath maxTokens dirPath rest newTok with
            | .error err => .error err
            | .ok (more, fin) => .ok (sub ++ more, fin)

/-- The recursive walk of `collectFilesContent`, with the depth bookkeeping
`depth`/`maxDepth` of the source replaced by the equivalent remaining-depth
counter `r = maxDepth + 1 - depth` (the guard `depth > maxDepth` is exactly
`r = 0`).  A directory listing failure is an uncaught exception (`.error`);
entries are visited in the order of the source comparator. -/
def collectAux (outputPath : String) (maxTokens : Nat) :
    Nat → String → FSEntry → Nat → Except String (List CollectedFile × Nat)
  | 0, _, _, cur => .ok ([], cur)
  | r + 1, dirPath, e, cur =>
    if cur ≥ maxTokens then .ok ([], cur)
    else
      match e with
      | .file _ _ _ _ => .error ("ENOTDIR: not a directory, scandir " ++ dirPath)
      | .unreadableDir _ => .error ("EACCES: permission denied, scandir " ++ dirPath)
      | .dir _ entries =>
        collectEntriesWith (collectAux outputPath maxTokens r) outputPath maxTokens
          dirPath (sortCmp (fun a b => fileOrderLT a.name b.name) entries) cur

/-- Source `collectFilesContent(dir, outputPath, depth, maxDepth, maxTokens,
currentTokens)` on the tree rooted at `root` (which sits at path
`dirPath`). -/
def collectFilesContent (dirPath : String) (root : FSEntry) (outputPath : String)
    (depth maxDepth maxTokens currentTokens : Nat) :
    Except String (List CollectedFile × Nat) :=
  collectAux outputPath maxTokens (maxDepth + 1 - depth) dirPath root currentTokens

/-- Source `collectProjectContext`: formats the collected files, or catches
the propagated walk exception and returns an error string. -/
def collectProjectContext (rootDir : String) (root : FSEntry) (outputPath : String)
    (maxTokens : Nat) : String :=
  match collectFilesContent rootDir root outputPath 0 5 maxTokens 0 with
  | .ok (files, _) =>
    files.foldl
      (fun acc f =>
        acc ++ "\n--- FILE: " ++ pathRelative rootDir f.path ++ " ---\n\n" ++
          f.content ++ "\n\n")
      ("Project Directory: " ++ rootDir ++ "\n\n")
  | .error e => "Error collecting project context: " ++ e

/-- Whether walking an entry to a remaining depth of `r` meets no
unreadable directory: files are read (never scanned), directories are
scanned one level per unit of depth, and nothing below the depth cutoff is
touched. -/
def walkOk : Nat → FSEntry → Bool
  | 0, _ => true
  | _ + 1, .file _ _ _ _ => true
  | _ + 1, .unreadableDir _ => false
  | r + 1, .dir _ entries => entries.all (walkOk r)

/-- Whether an entry is a plain file. -/
def isFileEntry : FSEntry → Bool
  | .file _ _ _ _ => true
  | _ => false

/-- Number of files returned by a full collection, zero when the walk
throws (used to state the budget-monotonicity counterexample). -/
def collectedCount (dirPath : String) (root : FSEntry) (outputPath : String)
    (maxTokens : Nat) : Nat :=
  match collectFilesContent dirPath root outputPath 0 5 maxTokens 0 with
  | .ok (files, _) => files.length
  | .error _ => 0

/-- State of the watcher callback: whether a debounce timer is pending. -/
structure WatchState where
  debouncePending : Bool
deriving DecidableEq, Repr

/-- The body of `watcher.on("all", ...)` in `index.ts`: any pending
debounce timer is cleared first; events whose path is the output path,
contains the output basename, or contains `.context.env` return without
scheduling; every other event arms the debounce timer.  The returned flag
says whether a regeneration was scheduled. -/
def handleWatchEvent (outputPath : String) (_st : WatchState) (filePath : String) :
    WatchState × Bool :=
  let cleared : WatchState := ⟨false⟩
  if decide (filePath = outputPath) || jsIncludes filePath (pathBasename outputPath)
      || jsIncludes filePath ".context.env" then
    (cleared, false)
  else
    (⟨true⟩, true)

/-- A forty-character file body (ten estimated tokens). -/
def demoC40 : String := "0123456789012345678901234567890123456789"

/-- A sixteen-character file body (four estimated tokens). -/
def demoC16 : String := "0123456789012345"

/-- Three code files of ten, four and four tokens, used to exhibit the
non-monotonicity of the collector in the token budget. -/
def demoTreeBudget : FSEntry :=
  .dir "p" [.file "a.ts" demoC40 40 false, .file "b.ts" demoC16 16 false,
            .file "c.ts" demoC16 16 false]

/-- A tree whose middle entry is an unreadable directory, flanked by
readable files. -/
def demoTreeWalkFail : FSEntry :=
  .dir "p" [.file "a.ts" demoC16 16 false, .unreadableDir "sub",
            .file "c.ts" demoC16 16 false]

/-- A tree with one unreadable file followed by a readable one. -/
def demoTreeErrFile : FSEntry :=
  .dir "p" [.file "a.ts" demoC16 16 true, .file "b.ts" demoC16 16 false]

/-- A project root holding only a readable `.env.example`. -/
def demoTreeEnvExample : FSEntry :=
  .dir "p" [.file ".env.example" "K=V" 3 false]

/-- A project root holding only a readable `.npmignore`. -/
def demoTreeNpmIgnore : FSEntry :=
  .dir "p" [.file ".npmignore" "x" 1 false]


/-- State of the single-threaded generation loop in `index.ts`: the
`isProcessing` flag checked and set by the debounce callback, plus counters
of generation passes currently in flight, split by what started them.  The
`await` inside each pass is a suspension point of the cooperative
scheduler, so other timer callbacks run while a pass is in flight. -/
structure OrchState where
  isProcessing : Bool
  debounceGens : Nat
  intervalGens : Nat
deriving DecidableEq, Repr

/-- Events of the loop: the debounce timer firing, the interval timer
firing, and a generation pass of either kind completing. -/
inductive OrchEvent where
  | debounceFire
  | intervalFire
  | debounceDone
  | intervalDone
deriving DecidableEq, Repr

/-- One scheduler step, read off `index.ts` lines 177-202: the debounce
callback returns at once when `isProcessing` is set, otherwise sets it and
starts a pass, clearing the flag when that pass completes; `setInterval`
calls `writeMarkdownFile` directly, with no check or set of the flag. -/
def orchStep (s : OrchState) : OrchEvent → OrchState
  | .debounceFire =>
    if s.isProcessing then s
    else { s with isProcessing := true, debounceGens := s.debounceGens + 1 }
  | .intervalFire => { s with intervalGens := s.intervalGens + 1 }
  | .debounceDone =>
    if s.debounceGens = 0 then s
    else { isProcessing := false, debounceGens := s.debounceGens - 1,
           intervalGens := s.intervalGens }
  | .intervalDone =>
    if s.intervalGens = 0 then s
    else { s with intervalGens := s.intervalGens - 1 }

/-- Run the loop over a list of events. -/
def orchRun (s : OrchState) (evts : List OrchEvent) : OrchState :=
  evts.foldl orchStep s

/-- The loop state at startup. -/
def orchInit : OrchState := ⟨false, 0, 0⟩

/-- Total number of generation passes currently in flight. -/
def inFlight (s : OrchState) : Nat := s.debounceGens + s.intervalGens


/-- A prioritized file as carried by `buildSectionContext`. -/
structure SectionFile where
  path : String
  content : String
deriving DecidableEq, Repr

/-- Wrapper cost charged per file by the skip-and-continue
`buildSectionContext` variant (context-manager source, lines 1499-1523):
content tokens plus the tokens of the labelled code-fence header and the
closing fence around the content. -/
def wrapCost (f : SectionFile) : Nat :=
  estimateTokens f.content +
    estimateTokens ("\n### FILE: " ++ f.path ++ "\n```\n") +
    estimateTokens "\n```\n"

/-- Tokens charged per file by the early-break `buildSectionContext`
variant (context-manager source, lines 577-597): the estimate of the whole
wrapped block. -/
def cm1WrapTokens (f : SectionFile) : Nat :=
  estimateTokens ("\nFILE: " ++ f.path ++ "\n---\n" ++ f.content ++ "\n---\n\n")

/-- Per-section file cap of the skip-and-continue variant (lines
1629-1651). -/
def getMaxFilesForSection (sectionKey : String) : Nat :=
  if sectionKey = "overview" then 5
  else if sectionKey = "architecture" then 10
  else if sectionKey = "setup" then 6
  else if sectionKey = "apis" then 8
  else if sectionKey = "components" then 10
  else if sectionKey = "configuration" then 5
  else if sectionKey = "development" then 6
  else if sectionKey = "troubleshooting" then 5
  else 8

/-- Per-section file cap of the early-break variant (lines 761-787). -/
def cm1GetMaxFilesForSection (sectionKey : String) : Nat :=
  if sectionKey = "overview" then 30
  else if sectionKey = "technology" then 40
  else if sectionKey = "architecture" then 50
  else if sectionKey = "dataModel" then 30
  else if sectionKey = "api" then 50
  else if sectionKey = "security" then 25
  else if sectionKey = "codeStandards" then 40
  else if sectionKey = "deployment" then 30
  else if sectionKey = "userGuide" then 40
  else if sectionKey = "roadmap" then 20
  else 30

/-- The file-inclusion loop of the skip-and-continue `buildSectionContext`
variant (lines 1499-1523): a file whose wrapped cost no longer fits is
skipped with `continue`; a fitting file is appended, and the loop breaks
once the included count reaches the section cap.  Returns the included
paths and the final token count. -/
def cm2SectionLoop (budget maxFiles : Nat) :
    List SectionFile → Nat → List String → List String × Nat
  | [], used, included => (included, used)
  | f :: rest, used, included =>
    if used + wrapCost f > budget then
      cm2SectionLoop budget maxFiles rest used included
    else
      let included2 := included ++ [f.path]
      let used2 := used + wrapCost f
      if included2.length ≥ maxFiles then (included2, used2)
      else cm2SectionLoop budget maxFiles rest used2 included2

/-- The file-inclusion loop of the early-break `buildSectionContext`
variant (lines 577-597): the cap is checked at the top of each iteration,
a fitting file is appended, and the first file that does not fit breaks the
loop. -/
def cm1SectionLoop (budget maxFiles : Nat) :
    List SectionFile → Nat → List String → List String × Nat
  | [], used, included => (included, used)
  | f :: rest, used, included =>
    if included.length ≥ maxFiles then (included, used)
    else
      let t := cm1WrapTokens f
      if used + t ≤ budget then
        cm1SectionLoop budget maxFiles rest (used + t) (included ++ [f.path])
      else (included, used)

/-- Modelled from the spec (section 4.4, step 5), for comparison with the
source loops: iterate the prioritized files; for each, if the wrapper cost
plus content tokens still fits the budget, append and accumulate, otherwise
skip that file and continue with the next, until the hard per-section file
cap binds or the list is exhausted. -/
def specSkipContinue (cost : SectionFile → Nat) (budget maxFiles : Nat) :
    List SectionFile → Nat → Nat → List String
  | [], _, _ => []
  | f :: rest, used, count =>
    if count ≥ maxFiles then []
    else if used + cost f ≤ budget then
      f.path :: specSkipContinue cost budget maxFiles rest (used + cost f) (count + 1)
    else specSkipContinue cost budget maxFiles rest used count

/-- A hundred-character file body whose wrapped block does not fit a small
budget. -/
def demoBigFile : SectionFile :=
  ⟨"b", "0123456789012345678901234567890123456789012345678901234567890123456789012345678901234567890123456789"⟩

/-- A four-character file body whose wrapped block fits a small budget. -/
def demoSmallFile : SectionFile := ⟨"s", "abcd"⟩


/-- Package metadata extracted by `getProjectInfo`. -/
structure ProjectInfo where
  name : String
  version : String
  description : String
deriving DecidableEq, Repr

/-- The metadata-only context built by the incremental branch of
`generateMarkdown` in `index.ts` (the template literal at lines 87-93,
indentation tabs included); the existing document is read just before but
is not part of this context. -/
def metadataContext (info : ProjectInfo) (timestamp : String) : String :=
  "\n\t\t\tProject Name: " ++ info.name ++
  "\n\t\t\tProject Version: " ++ info.version ++
  "\n\t\t\tProject Description: " ++ info.description ++
  "\n\t\t\t\n\t\t\tCurrent Timestamp: " ++ timestamp ++ "\n\t\t\t"

/-- Fallback error document produced by the catch of `generateMarkdown`
(lines 104-113). -/
def errorDoc (timestamp : String) : String :=
  "# Error Generating Project Documentation\n\nAn error occurred while generating the project documentation.\n\nTimestamp: " ++
    timestamp ++ "\n\nPlease check your configuration and try again."

/-- Which prompt-building branch `generateMarkdown` takes (lines 61-103):
initial generation, incremental update of an existing output file, or the
fallback full collection when no output file exists. -/
inductive GenPath where
  | initialFull
  | incremental
  | fallbackFull
deriving DecidableEq, Repr

/-- Branch selection of `generateMarkdown`. -/
def generateMarkdownPath (initialGeneration outputExists : Bool) : GenPath :=
  if initialGeneration then .initialFull
  else if outputExists then .incremental
  else .fallbackFull

/-- The context string handed to the provider by `generateMarkdown`: the
freshly collected full context in the initial and fallback branches, the
metadata context in the incremental branch. -/
def generateMarkdownContext (initialGeneration outputExists : Bool)
    (fullContext : String) (info : ProjectInfo) (timestamp : String) : String :=
  if initialGeneration then fullContext
  else if outputExists then metadataContext info timestamp
  else fullContext

/-- The markdown produced by one `generateMarkdown` run, given the outcome
of the provider call inside the try block: a thrown error is caught and
replaced by the timestamped error document. -/
def generateMarkdownResult (outcome : Except String String) (timestamp : String) :
    String :=
  match outcome with
  | .ok content => content
  | .error _ => errorDoc timestamp

/-- The state `writeMarkdownFile` acts on: the output file and whether the
watcher is active. -/
structure World where
  outputFile : Option String
  watcherActive : Bool
deriving DecidableEq, Repr

/-- Source `writeMarkdownFile`: overwrites the output file with whatever
`generateMarkdown` returned (a total function — provider errors were
already converted to the error document) and does not touch the watcher. -/
def writeMarkdownFile (w : World) (outcome : Except String String)
    (timestamp : String) : World :=
  { outputFile := some (generateMarkdownResult outcome timestamp),
    watcherActive := w.watcherActive }

/-- The ASCII part of the JavaScript regular-expression class `\s`. -/
def isJsWhitespace (c : Char) : Bool :=
  c == ' ' || c == '\t' || c == '\n' || c == '\r' ||
    c == Char.ofNat 11 || c == Char.ofNat 12

/-- JavaScript `replace(/\s+/g, " ")` on a character list. -/
def collapseWs : List Char → List Char
  | [] => []
  | c :: rest =>
    if isJsWhitespace c then ' ' :: collapseWs (rest.dropWhile isJsWhitespace)
    else c :: collapseWs rest
termination_by l => l.length
decreasing_by
  all_goals simp_wf
  all_goals
    have h : (rest.dropWhile isJsWhitespace).length ≤ rest.length :=
      List.IsSuffix.length_le (List.dropWhile_suffix isJsWhitespace)
  all_goals omega

/-- JavaScript `String.prototype.trim` on a character list. -/
def jsTrim (l : List Char) : List Char :=
  ((l.dropWhile isJsWhitespace).reverse.dropWhile isJsWhitespace).reverse

/-- The normalisation step of `generateSimpleEmbedding`:
`text.toLowerCase().replace(/\s+/g, " ").trim()`. -/
def normalizeText (s : String) : List Char :=
  jsTrim (collapseWs (jsToLower s).data)

/-- Source `generateSimpleEmbedding`: fold the character codes of the
normalised text into a `dimensions`-wide vector, then divide by the
magnitude (`magnitude || 1` substitutes one for a zero or NaN
magnitude). -/
def generateSimpleEmbedding (text : String) (dimensions : Nat) : List Float :=
  let normalized := normalizeText text
  let filled := (normalized.foldl
    (fun (p : Nat × List Float) c =>
      (p.1 + 1,
       p.2.set (p.1 % dimensions)
         (p.2.getD (p.1 % dimensions) 0.0 + Float.ofNat c.toNat / 1000.0)))
    (0, List.replicate dimensions 0.0)).2
  let magnitude := Float.sqrt (filled.foldl (fun sum v => sum + v * v) 0.0)
  let denom := if magnitude == 0.0 || magnitude.isNaN then 1.0 else magnitude
  filled.map (fun v => v / denom)

/-- Source `cosineSimilarity`: the only throw is the length check; a zero
norm short-circuits to zero. -/
def cosineSimilarity (vecA vecB : List Float) : Except String Float :=
  if vecA.length ≠ vecB.length then .error "Vectors must be of same length"
  else
    let dotProduct := (vecA.zip vecB).foldl (fun s p => s + p.1 * p.2) 0.0
    let normA := Float.sqrt (vecA.foldl (fun s a => s + a * a) 0.0)
    let normB := Float.sqrt (vecB.foldl (fun s b => s + b * b) 0.0)
    if normA == 0.0 || normB == 0.0 then .ok 0.0
    else .ok (dotProduct / (normA * normB))

/-- The per-file similarity map inside `getSimilarFiles`, with exception
propagation made explicit. -/
def mapSimilarity (queryEmb : List Float) :
    List SectionFile → Except String (List (SectionFile × Float))
  | [] => .ok []
  | f :: rest =>
    match cosineSimilarity queryEmb (generateSimpleEmbedding f.content 128) with
    | .error e => .error e
    | .ok sim =>
      match mapSimilarity queryEmb rest with
      | .error e => .error e
      | .ok tail => .ok ((f, sim) :: tail)

/-- Source `VectorStore.getSimilarFiles` without its outer catch: embed
the query and every file, sort by descending similarity, keep the first
`limit` files. -/
def getSimilarFilesCore (allFiles : List SectionFile) (query : String)
    (limit : Nat) : Except String (List SectionFile) :=
  match mapSimilarity (generateSimpleEmbedding query 128) allFiles with
  | .error e => .error e
  | .ok withSim =>
    .ok (((sortCmp (fun a b => decide (b.2 < a.2)) withSim).take limit).map
      (fun p => ⟨p.1.path, p.1.content⟩))

/-- Source `VectorStore.getSimilarFiles` with its catch: any error yields
the empty list. -/
def getSimilarFiles (allFiles : List SectionFile) (query : String)
    (limit : Nat) : List SectionFile :=
  match getSimilarFilesCore allFiles query limit with
  | .ok files => files
  | .error _ => []

/-- JavaScript `substring(0, n)`. -/
def jsSubstringTo (s : String) (n : Nat) : String := ⟨s.data.take n⟩

/-- One file block of `buildIncrementalContext` (truncating bodies over
3000 characters). -/
def incrementalFileBlock (cwd : String) (f : SectionFile) : String :=
  "\n### FILE: " ++ pathRelative cwd f.path ++ "\n```\n" ++
    (if f.content.length > 3000 then jsSubstringTo f.content 3000 ++ "...\n"
     else f.content) ++ "\n```\n"

/-- The fixed header of `buildIncrementalContext` (lines 1940-1950). -/
def incrementalPre : String :=
  "# PROJECT DOCUMENTATION UPDATE SYSTEM PROMPT\n\n" ++
  "You are an expert programmer and technical documentation specialist. Your task is to update the existing documentation for this project.\n\n" ++
  "## TASK\nReview the existing documentation and update it with any new information. Maintain the original structure and format while enhancing or correcting content as needed.\n\n" ++
  "## OUTPUT FORMAT\n- Preserve the original document structure, including headings and organization\n- Update technical details, code examples, and explanations to reflect current state\n- Maintain consistent markdown formatting and style throughout\n- Ensure the document remains comprehensive and accurate\n\n"

/-- The fixed trailer of `buildIncrementalContext` (lines 1976-1981). -/
def incrementalGuidelines : String :=
  "\n## UPDATE GUIDELINES\n1. Keep what works in the existing documentation\n2. Update information that is outdated or incorrect\n3. Add any missing details about new features or changes\n4. Ensure the document flows logically and maintains technical accuracy\n5. Output the complete updated documentation\n"

/-- Source `ContextManager.buildIncrementalContext` (lines 1930-1984):
header, a 1500-character excerpt of the existing document, the project
statistics, the similarity-ranked relevant files, and the update
guidelines. -/
def buildIncrementalContext (cwd existingContent stats : String)
    (relevantFiles : List SectionFile) : String :=
  incrementalPre ++
  "## EXISTING DOCUMENTATION (EXCERPT)\n\n" ++
  (jsSubstringTo existingContent 1500 ++ "...\n\n") ++
  "## PROJECT STATISTICS\n" ++ (stats ++ "\n\n") ++
  "## RELEVANT FILES FOR CONTEXT\n" ++
  relevantFiles.foldl (fun acc f => acc ++ incrementalFileBlock cwd f) "" ++
  incrementalGuidelines


/-- Arithmetic form of the rational ceiling of `n / 4`. -/
theorem nat_ceil_div_four (n : Nat) : ⌈(n : ℚ) / 4⌉₊ = (n + 3) / 4 := by
  apply le_antisymm
  · have h4 : (0:ℚ) < 4 := by norm_num
    apply Nat.ceil_le.mpr
    rw [div_le_iff₀ h4]
    have hn : (n : ℚ) ≤ (((n + 3) / 4 : Nat) : ℚ) * 4 := by
      have : n ≤ ((n + 3) / 4) * 4 := by omega
      exact_mod_cast this
    exact hn
  · have hle : (n : ℚ) / 4 ≤ (⌈(n : ℚ) / 4⌉₊ : ℚ) := Nat.le_ceil _
    have h4 : (0:ℚ) < 4 := by norm_num
    rw [div_le_iff₀ h4] at hle
    have : n ≤ ⌈(n : ℚ) / 4⌉₊ * 4 := by exact_mod_cast hle
    omega

/-- C9: for every text, `estimateTokens` returns the integer
`ceil(length(text) / 4)`; it is a total function of the text alone (hence
pure and deterministic, with no error conditions), it depends only on the
length, and it is the least token count covering the text at four
characters per token. -/
theorem claim9_estimateTokens_ceil (text : String) :
    estimateTokens text = ⌈(text.length : ℚ) / 4⌉₊ ∧
    text.length ≤ 4 * estimateTokens text ∧
    4 * estimateTokens text < text.length + 4 ∧
    (∀ other : String, other.length = text.length →
      estimateTokens other = estimateTokens text) := by
  refine ⟨(nat_ceil_div_four text.length).symm, ?_, ?_, ?_⟩
  · simp only [estimateTokens]; omega
  · simp only [estimateTokens]; omega
  · intro other h
    simp only [estimateTokens, h]

/-- Witness for C9 at a concrete text. -/
theorem claim9_estimateTokens_ceil_witness :
    estimateTokens "abcdefghij" = ⌈((10 : Nat) : ℚ) / 4⌉₊ ∧
    ("xx" : String).length = ("yy" : String).length ∧
    estimateTokens "xx" = estimateTokens "yy" := by
  refine ⟨?_, by decide, (claim9_estimateTokens_ceil "yy").2.2.2 "xx" (by decide)⟩
  have h := (claim9_estimateTokens_ceil "abcdefghij").1
  simpa using h

/-- The walk result of a directory entry never carries more tokens than the
budget, provided the recursive walk of subdirectories has that property and
the incoming count is within budget. -/
theorem collectEntriesWith_tokens_le
    (collectChild : String → FSEntry → Nat → Except String (List CollectedFile × Nat))
    (op : String) (mt : Nat) (dp : String)
    (hchild : ∀ dp2 e c res, c ≤ mt → collectChild dp2 e c = .ok res → res.2 ≤ mt) :
    ∀ (l : List FSEntry) (cur : Nat), cur ≤ mt →
      ∀ res, collectEntriesWith collectChild op mt dp l cur = .ok res → res.2 ≤ mt := by
  intro l
  induction l with
  | nil =>
    intro cur hcur res h
    simp only [collectEntriesWith] at h
    cases h
    exact hcur
  | cons e rest ih =>
    intro cur hcur res h
    simp only [collectEntriesWith] at h
    split at h
    · cases h; exact hcur
    · split at h
      · exact ih cur hcur res h
      · split at h
        · -- file entry
          split at h
          · exact ih cur hcur res h
          · rename_i hfit
            split at h
            · cases h
            · rename_i more fin hrest
              cases h
              exact ih _ (by omega) (more, fin) hrest
        · -- directory or unreadable directory entry
          split at h
          · cases h
          · rename_i sub newTok hsub
            split at h
            · cases h
            · rename_i more fin hrest
              cases h
              have hnew : newTok ≤ mt := by
                have := hchild _ _ _ (sub, newTok) hcur hsub
                simpa using this
              have := ih newTok hnew (more, fin) hrest
              simpa using this

/-- The recursive walk never reports more tokens than the budget when it
starts within budget. -/
theorem collectAux_tokens_le (op : String) (mt : Nat) :
    ∀ (r : Nat) (dp : String) (e : FSEntry) (cur : Nat), cur ≤ mt →
      ∀ res, collectAux op mt r dp e cur = .ok res → res.2 ≤ mt := by
  intro r
  induction r with
  | zero =>
    intro dp e cur hcur res h
    simp only [collectAux] at h
    cases h
    exact hcur
  | succ r ih =>
    intro dp e cur hcur res h
    simp only [collectAux] at h
    split at h
    · cases h; exact hcur
    · split at h
      · cases h
      · cases h
      · exact collectEntriesWith_tokens_le (collectAux op mt r) op mt dp
          (fun dp2 e2 c res2 hc h2 => ih dp2 e2 c hc res2 h2) _ cur hcur res h

/-- Membership is preserved by the stable insertion. -/
theorem mem_insertCmp (lt : α → α → Bool) (a x : α) (l : List α) :
    x ∈ insertCmp lt a l ↔ x = a ∨ x ∈ l := by
  induction l with
  | nil => simp [insertCmp]
  | cons b m ih =>
    simp only [insertCmp]
    split
    · simp only [List.mem_cons, ih]
      try tauto
    · simp only [List.mem_cons]
      try tauto

/-- The stable sort is a permutation as far as membership is concerned. -/
theorem mem_sortCmp (lt : α → α → Bool) (x : α) (l : List α) :
    x ∈ sortCmp lt l ↔ x ∈ l := by
  induction l with
  | nil => simp [sortCmp]
  | cons a m ih =>
    have hstep : sortCmp lt (a :: m) = insertCmp lt a (sortCmp lt m) := rfl
    rw [hstep, mem_insertCmp, ih, List.mem_cons]

/-- A predicate holding on a list holds on its sorted version. -/
theorem all_sortCmp (lt : α → α → Bool) (p : α → Bool) (l : List α)
    (h : l.all p = true) : (sortCmp lt l).all p = true := by
  rw [List.all_eq_true] at h ⊢
  intro x hx
  exact h x ((mem_sortCmp lt x l).mp hx)

/-- The output path always trips the first `shouldIgnore` test. -/
theorem shouldIgnore_output (op : String) : shouldIgnore op op = true := by
  simp [shouldIgnore]

/-- No collected path equals the output path, provided the recursive walk
of subdirectories has that property. -/
theorem collectEntriesWith_ne_output
    (collectChild : String → FSEntry → Nat → Except String (List CollectedFile × Nat))
    (op : String) (mt : Nat) (dp : String)
    (hchild : ∀ dp2 e c res, collectChild dp2 e c = .ok res → ∀ f ∈ res.1, f.path ≠ op) :
    ∀ (l : List FSEntry) (cur : Nat) (res : List CollectedFile × Nat),
      collectEntriesWith collectChild op mt dp l cur = .ok res →
      ∀ f ∈ res.1, f.path ≠ op := by
  intro l
  induction l with
  | nil =>
    intro cur res h
    simp only [collectEntriesWith] at h
    cases h
    intro f hf
    simp at hf
  | cons e rest ih =>
    intro cur res h
    simp only [collectEntriesWith] at h
    split at h
    · cases h
      intro f hf
      simp at hf
    · split at h
      · exact ih cur res h
      · rename_i hig
        split at h
        · split at h
          · exact ih cur res h
          · split at h
            · cases h
            · rename_i more fin hrest
              cases h
              intro f hf
              rcases List.mem_cons.mp hf with hf | hf
              · subst hf
                intro heq
                apply hig
                rw [← heq]
                exact shouldIgnore_output _
              · exact ih _ (more, fin) hrest f hf
        · split at h
          · cases h
          · rename_i sub newTok hsub
            split at h
            · cases h
            · rename_i more fin hrest
              cases h
              intro f hf
              rcases List.mem_append.mp hf with hf | hf
              · exact hchild _ _ _ (sub, newTok) hsub f hf
              · exact ih _ (more, fin) hrest f hf

/-- The recursive walk never returns the output path among the collected
files. -/
theorem collectAux_ne_output (op : String) (mt : Nat) :
    ∀ (r : Nat) (dp : String) (e : FSEntry) (cur : Nat) (res : List CollectedFile × Nat),
      collectAux op mt r dp e cur = .ok res → ∀ f ∈ res.1, f.path ≠ op := by
  intro r
  induction r with
  | zero =>
    intro dp e cur res h
    simp only [collectAux] at h
    cases h
    intro f hf
    simp at hf
  | succ r ih =>
    intro dp e cur res h
    simp only [collectAux] at h
    split at h
    · cases h
      intro f hf
      simp at hf
    · split at h
      · cases h
      · cases h
      · exact collectEntriesWith_ne_output (collectAux op mt r) op mt dp
          (fun dp2 e2 c res2 h2 => ih dp2 e2 c res2 h2) _ cur res h

/-- The directory loop succeeds when every entry is walkable to depth `r`
and the recursive walk succeeds on walkable non-file entries. -/
theorem collectEntriesWith_ok
    (collectChild : String → FSEntry → Nat → Except String (List CollectedFile × Nat))
    (op : String) (mt : Nat) (dp : String) (r : Nat)
    (hchild : ∀ dp2 e c, walkOk r e = true → isFileEntry e = false →
      (collectChild dp2 e c).isOk = true) :
    ∀ (l : List FSEntry) (cur : Nat), l.all (walkOk r) = true →
      (collectEntriesWith collectChild op mt dp l cur).isOk = true := by
  intro l
  induction l with
  | nil =>
    intro cur _
    simp [collectEntriesWith, Except.isOk, Except.toBool]
  | cons e rest ih =>
    intro cur hall
    have he : walkOk r e = true := by
      have := List.all_eq_true.mp hall e (List.mem_cons_self e rest)
      simpa using this
    have hrestAll : rest.all (walkOk r) = true := by
      rw [List.all_eq_true] at hall ⊢
      intro x hx
      exact hall x (List.mem_cons_of_mem e hx)
    cases e with
    | file n content size readErr =>
      simp only [collectEntriesWith, FSEntry.name]
      split
      · simp [Except.isOk, Except.toBool]
      · split
        · exact ih cur hrestAll
        · split
          · exact ih cur hrestAll
          · cases hrest : collectEntriesWith collectChild op mt dp rest
                (cur + estimateTokens (readFileContent content size readErr)) with
            | error err =>
              have hok := ih (cur + estimateTokens (readFileContent content size readErr))
                hrestAll
              rw [hrest] at hok
              simp [Except.isOk, Except.toBool] at hok
            | ok res2 =>
              simp [Except.isOk, Except.toBool]
    | dir n entries =>
      have hnf : isFileEntry (FSEntry.dir n entries) = false := rfl
      simp only [collectEntriesWith, FSEntry.name]
      split
      · simp [Except.isOk, Except.toBool]
      · split
        · exact ih cur hrestAll
        · cases hsub : collectChild (pathJoin dp n) (FSEntry.dir n entries) cur with
          | error err =>
            have hok := hchild (pathJoin dp n) (FSEntry.dir n entries) cur he hnf
            rw [hsub] at hok
            simp [Except.isOk, Except.toBool] at hok
          | ok sub =>
            obtain ⟨subL, newTok⟩ := sub
            cases hrest : collectEntriesWith collectChild op mt dp rest newTok with
            | error err =>
              have hok := ih newTok hrestAll
              rw [hrest] at hok
              simp [Except.isOk, Except.toBool] at hok
            | ok res2 =>
              have hgoal : (match collectEntriesWith collectChild op mt dp rest newTok with
                  | Except.error err =>
                    (Except.error err : Except String (List CollectedFile × Nat))
                  | Except.ok (more, fin) => Except.ok (subL ++ more, fin)).isOk = true := by
                rw [hrest]
                simp [Except.isOk, Except.toBool]
              exact hgoal
    | unreadableDir n =>
      have hnf : isFileEntry (FSEntry.unreadableDir n) = false := rfl
      simp only [collectEntriesWith, FSEntry.name]
      split
      · simp [Except.isOk, Except.toBool]
      · split
        · exact ih cur hrestAll
        · cases hsub : collectChild (pathJoin dp n) (FSEntry.unreadableDir n) cur with
          | error err =>
            have hok := hchild (pathJoin dp n) (FSEntry.unreadableDir n) cur he hnf
            rw [hsub] at hok
            simp [Except.isOk, Except.toBool] at hok
          | ok sub =>
            obtain ⟨subL, newTok⟩ := sub
            cases hrest : collectEntriesWith collectChild op mt dp rest newTok with
            | error err =>
              have hok := ih newTok hrestAll
              rw [hrest] at hok
              simp [Except.isOk, Except.toBool] at hok
            | ok res2 =>
              have hgoal : (match collectEntriesWith collectChild op mt dp rest newTok with
                  | Except.error err =>
                    (Except.error err : Except String (List CollectedFile × Nat))
                  | Except.ok (more, fin) => Except.ok (subL ++ more, fin)).isOk = true := by
                rw [hrest]
                simp [Except.isOk, Except.toBool]
              exact hgoal

/-- The recursive walk succeeds on every walkable non-file entry. -/
theorem collectAux_ok (op : String) (mt : Nat) :
    ∀ (r : Nat) (dp : String) (e : FSEntry) (cur : Nat),
      walkOk r e = true → isFileEntry e = false →
      (collectAux op mt r dp e cur).isOk = true := by
  intro r
  induction r with
  | zero =>
    intro dp e cur _ _
    simp [collectAux, Except.isOk, Except.toBool]
  | succ r ih =>
    intro dp e cur he hnf
    simp only [collectAux]
    split
    · simp [Except.isOk, Except.toBool]
    · cases e with
      | file n content size readErr => simp [isFileEntry] at hnf
      | unreadableDir n => simp [walkOk] at he
      | dir n entries =>
        have hall : entries.all (walkOk r) = true := by simpa [walkOk] using he
        exact collectEntriesWith_ok (collectAux op mt r) op mt dp r
          (fun dp2 e2 c h1 h2 => ih dp2 e2 c h1 h2) _ cur
          (all_sortCmp _ _ _ hall)

/-- C2: the resolved output file path is never among the files returned by
the collector, and a watch event whose path is the output file (given
verbatim or in a form containing the output basename) never schedules a
regeneration pass. -/
theorem claim2_output_self_exclusion :
    (∀ (dp : String) (root : FSEntry) (op : String) (depth maxDepth mt cur : Nat)
        (files : List CollectedFile) (tc : Nat),
        collectFilesContent dp root op depth maxDepth mt cur = .ok (files, tc) →
        ∀ f ∈ files, f.path ≠ op) ∧
    (∀ (st : WatchState) (op : String), (handleWatchEvent op st op).2 = false) ∧
    (∀ (st : WatchState) (op fp : String),
      jsIncludes fp (pathBasename op) = true → (handleWatchEvent op st fp).2 = false) := by
  refine ⟨?_, ?_, ?_⟩
  · intro dp root op depth maxDepth mt cur files tc h f hf
    exact collectAux_ne_output op mt _ dp root cur (files, tc) h f hf
  · intro st op
    simp [handleWatchEvent]
  · intro st op fp h
    simp [handleWatchEvent, h]

/-- Witness for C2 at a concrete tree and concrete watch events. -/
theorem claim2_output_self_exclusion_witness :
    collectFilesContent "/p" demoTreeBudget "/p/out.md" 0 5 8 0 =
      .ok ([⟨"/p/b.ts", demoC16⟩, ⟨"/p/c.ts", demoC16⟩], 8) ∧
    (⟨"/p/b.ts", demoC16⟩ : CollectedFile).path ≠ "/p/out.md" ∧
    (handleWatchEvent "/p/out.md" ⟨true⟩ "/p/out.md").2 = false ∧
    jsIncludes "sub/out.md" (pathBasename "/p/out.md") = true ∧
    (handleWatchEvent "/p/out.md" ⟨true⟩ "sub/out.md").2 = false :=
  ⟨by decide,
   claim2_output_self_exclusion.1 "/p" demoTreeBudget "/p/out.md" 0 5 8 0
     [⟨"/p/b.ts", demoC16⟩, ⟨"/p/c.ts", demoC16⟩] 8 (by decide) _ (by decide),
   claim2_output_self_exclusion.2.1 ⟨true⟩ "/p/out.md",
   by decide,
   claim2_output_self_exclusion.2.2 ⟨true⟩ "/p/out.md" "sub/out.md" (by decide)⟩

/-- C4 fails on the code: the same tree collects two files under a budget
of eight tokens but only one under the larger budget of ten (the
ten-token file `a.ts` fills the larger budget exactly, and the walk then
stops at the `currentTokens >= maxTokens` break). -/
theorem claim4_budget_monotonicity_counterexample :
    (8 : Nat) ≤ 10 ∧
    collectedCount "/p" demoTreeBudget "/p/out.md" 8 = 2 ∧
    collectedCount "/p" demoTreeBudget "/p/out.md" 10 = 1 ∧
    ¬ (collectedCount "/p" demoTreeBudget "/p/out.md" 8 ≤
        collectedCount "/p" demoTreeBudget "/p/out.md" 10) := by
  exact ⟨by decide, by decide, by decide, by decide⟩

/-- C4 amended: increasing the token budget can strictly decrease the
number of included files (greedy fixed-order packing is not monotone); what
the collector does guarantee is that the reported token count never exceeds
the budget whenever the incoming count is within budget. -/
theorem claim4_token_budget_bound (dp : String) (root : FSEntry) (op : String)
    (depth maxDepth maxTokens currentTokens : Nat)
    (hcur : currentTokens ≤ maxTokens) (files : List CollectedFile) (tc : Nat)
    (h : collectFilesContent dp root op depth maxDepth maxTokens currentTokens =
      .ok (files, tc)) : tc ≤ maxTokens :=
  collectAux_tokens_le op maxTokens _ dp root currentTokens hcur (files, tc) h

/-- Witness for the amended C4 at a concrete tree and budget. -/
theorem claim4_token_budget_bound_witness :
    (0 : Nat) ≤ 8 ∧
    collectFilesContent "/p" demoTreeBudget "/p/out.md" 0 5 8 0 =
      .ok ([⟨"/p/b.ts", demoC16⟩, ⟨"/p/c.ts", demoC16⟩], 8) ∧ (8 : Nat) ≤ 8 :=
  ⟨by decide, by decide,
   claim4_token_budget_bound "/p" demoTreeBudget "/p/out.md" 0 5 8 0 (by decide)
     [⟨"/p/b.ts", demoC16⟩, ⟨"/p/c.ts", demoC16⟩] 8 (by decide)⟩

/-- C5 fails on the code: the dotfile branch does keep `.env.example`, but
the later substring pattern check (the `.env` entry of `ignorePatterns`)
still excludes it, so a readable `.env.example` in the project root does
not appear in the collected file set. -/
theorem claim5_env_example_counterexample :
    hiddenFileExcluded ".env.example" = false ∧
    shouldIgnore "/p/.env.example" "/p/project-context.md" = true ∧
    collectFilesContent "/p" demoTreeEnvExample "/p/project-context.md" 0 5 30000 0 =
      .ok ([], 0) := by
  exact ⟨by decide, by decide, by decide⟩

/-- C5 amended: basenames ending in `gitignore`, `npmignore` or
`env.example` are never excluded by the dotfile rule, but the substring
ignore patterns still exclude any path containing `.env` or `.git`; hence
`.env.example` and `.gitignore` are excluded anyway while `.npmignore` is
collected. -/
theorem claim5_keep_list_vs_patterns :
    (∀ b : String,
      jsEndsWith b "gitignore" = true ∨ jsEndsWith b "npmignore" = true ∨
        jsEndsWith b "env.example" = true →
      hiddenFileExcluded b = false) ∧
    shouldIgnore "/p/.env.example" "/p/project-context.md" = true ∧
    shouldIgnore "/p/.gitignore" "/p/project-context.md" = true ∧
    shouldIgnore "/p/.npmignore" "/p/project-context.md" = false ∧
    collectFilesContent "/p" demoTreeNpmIgnore "/p/project-context.md" 0 5 30000 0 =
      .ok ([⟨"/p/.npmignore", "x"⟩], 1) := by
  refine ⟨?_, by decide, by decide, by decide, by decide⟩
  intro b hb
  simp only [hiddenFileExcluded, hiddenKeepList]
  rcases hb with hb | hb | hb <;> simp [hb]

/-- Witness for the amended C5 at a concrete basename. -/
theorem claim5_keep_list_vs_patterns_witness :
    jsEndsWith ".gitignore" "gitignore" = true ∧
    hiddenFileExcluded ".gitignore" = false :=
  ⟨by decide, claim5_keep_list_vs_patterns.1 ".gitignore" (Or.inl (by decide))⟩

/-- C7 fails on the code: a failure while walking a directory does not
abort that subtree only; the exception propagates out of the whole walk
(`collectFilesContent` has no try/catch), so the files collected before
the failure and the sibling files after it are all lost, and
`collectProjectContext` returns its catch-all error string instead. -/
theorem claim7_subtree_abort_counterexample :
    (collectFilesContent "/p" demoTreeWalkFail "/p/out.md" 0 5 30000 0).isOk = false ∧
    collectProjectContext "/p" demoTreeWalkFail "/p/out.md" 30000 =
      "Error collecting project context: EACCES: permission denied, scandir /p/sub" := by
  exact ⟨by decide, by decide⟩

/-- C7 amended: an unreadable single file is contained (its read error is
caught and replaced by an inline placeholder, and collection proceeds to
later files), whereas a directory-walk failure aborts the entire
collection; conversely, when every directory within the explored depth is
readable the walk always succeeds. -/
theorem claim7_error_containment :
    (∀ (content : String) (size : Nat),
      readFileContent content size true = "[Error reading file: Error]") ∧
    collectFilesContent "/p" demoTreeErrFile "/p/out.md" 0 5 30000 0 =
      .ok ([⟨"/p/a.ts", "[Error reading file: Error]"⟩, ⟨"/p/b.ts", demoC16⟩], 11) ∧
    (∀ (dp : String) (root : FSEntry) (op : String) (depth maxDepth mt cur : Nat),
      walkOk (maxDepth + 1 - depth) root = true → isFileEntry root = false →
      (collectFilesContent dp root op depth maxDepth mt cur).isOk = true) := by
  refine ⟨fun content size => rfl, by decide, ?_⟩
  intro dp root op depth maxDepth mt cur h hf
  exact collectAux_ok op mt _ dp root cur h hf

/-- Witness for the amended C7 at a concrete file and tree. -/
theorem claim7_error_containment_witness :
    readFileContent "abc" 3 true = "[Error reading file: Error]" ∧
    walkOk 6 demoTreeBudget = true ∧ isFileEntry demoTreeBudget = false ∧
    (collectFilesContent "/p" demoTreeBudget "/p/out.md" 0 5 8 0).isOk = true :=
  ⟨claim7_error_containment.1 "abc" 3, by decide, by decide,
   claim7_error_containment.2.2 "/p" demoTreeBudget "/p/out.md" 0 5 8 0 (by decide) (by decide)⟩

/-- C3 fails on the code: after the debounce timer starts a generation pass
(`isProcessing` is set and one pass is in flight), a firing of the interval
timer starts a second concurrent pass, because `setInterval` invokes the
generation routine without consulting the `isProcessing` guard. -/
theorem claim3_interval_unguarded_counterexample :
    (orchRun orchInit [.debounceFire]).isProcessing = true ∧
    inFlight (orchRun orchInit [.debounceFire]) = 1 ∧
    inFlight (orchRun orchInit [.debounceFire, .intervalFire]) = 2 := by
  exact ⟨by decide, by decide, by decide⟩

/-- C3 amended: only the debounce path is guarded by the boolean flag — a
debounce firing while `isProcessing` is set starts nothing, so at most one
debounce-initiated pass is ever in flight — while an interval firing always
starts a pass, unguarded, so overall mutual exclusion does not hold. -/
theorem claim3_debounce_only_guard :
    (∀ s : OrchState, s.isProcessing = true → orchStep s .debounceFire = s) ∧
    (∀ s : OrchState, (orchStep s .intervalFire).intervalGens = s.intervalGens + 1) ∧
    (∀ evts : List OrchEvent, (orchRun orchInit evts).debounceGens ≤ 1) := by
  refine ⟨?_, ?_, ?_⟩
  · intro s h
    simp [orchStep, h]
  · intro s
    simp [orchStep]
  · intro evts
    suffices h : ∀ s : OrchState, s.debounceGens ≤ 1 →
        (s.isProcessing = true ↔ s.debounceGens = 1) →
        (orchRun s evts).debounceGens ≤ 1 by
      exact h orchInit (by decide) (by decide)
    induction evts with
    | nil =>
      intro s h1 _
      exact h1
    | cons e rest ih =>
      intro s h1 h2
      have hrun : orchRun s (e :: rest) = orchRun (orchStep s e) rest := rfl
      rw [hrun]
      have hstep : (orchStep s e).debounceGens ≤ 1 ∧
          ((orchStep s e).isProcessing = true ↔ (orchStep s e).debounceGens = 1) := by
        cases e with
        | debounceFire =>
          by_cases hp : s.isProcessing = true
          · have hid : orchStep s .debounceFire = s := by simp [orchStep, hp]
            rw [hid]
            exact ⟨h1, h2⟩
          · have hfalse : s.isProcessing = false := by
              cases hps : s.isProcessing
              · rfl
              · exact absurd hps hp
            have hne : s.debounceGens ≠ 1 := by
              intro hh
              have := h2.mpr hh
              rw [hfalse] at this
              cases this
            have hz : s.debounceGens = 0 := by omega
            simp [orchStep, hfalse, hz]
        | intervalFire =>
          refine ⟨?_, ?_⟩
          · simpa [orchStep] using h1
          · simpa [orchStep] using h2
        | debounceDone =>
          by_cases hz : s.debounceGens = 0
          · refine ⟨?_, ?_⟩
            · simp only [orchStep, if_pos hz]
              exact h1
            · simp [orchStep, hz, h2]
          · simp only [orchStep, if_neg hz]
            refine ⟨by omega, ?_⟩
            constructor
            · intro hh
              cases hh
            · intro hh
              omega
        | intervalDone =>
          by_cases hz : s.intervalGens = 0
          · refine ⟨?_, ?_⟩
            · simpa [orchStep, hz] using h1
            · simpa [orchStep, hz] using h2
          · refine ⟨?_, ?_⟩
            · simpa [orchStep, hz] using h1
            · simpa [orchStep, hz] using h2
      exact ih (orchStep s e) hstep.1 hstep.2

/-- Witness for the amended C3 at concrete states and traces. -/
theorem claim3_debounce_only_guard_witness :
    (orchRun orchInit [.debounceFire]).isProcessing = true ∧
    orchStep (orchRun orchInit [.debounceFire]) .debounceFire =
      orchRun orchInit [.debounceFire] ∧
    (orchStep orchInit .intervalFire).intervalGens = orchInit.intervalGens + 1 ∧
    (orchRun orchInit [.debounceFire, .intervalFire]).debounceGens ≤ 1 :=
  ⟨by decide, claim3_debounce_only_guard.1 _ (by decide),
   claim3_debounce_only_guard.2.1 orchInit,
   claim3_debounce_only_guard.2.2 [.debounceFire, .intervalFire]⟩

/-- Once the cap binds, the spec policy includes nothing further. -/
theorem specSkipContinue_stop (cost : SectionFile → Nat) (budget maxFiles : Nat)
    (l : List SectionFile) (used count : Nat) (h : count ≥ maxFiles) :
    specSkipContinue cost budget maxFiles l used count = [] := by
  cases l with
  | nil => rfl
  | cons f rest => simp [specSkipContinue, if_pos h]

/-- The skip-and-continue loop computes exactly the spec policy, relative
to any already-included prefix strictly below the cap. -/
theorem cm2SectionLoop_eq_spec (budget maxFiles : Nat) :
    ∀ (files : List SectionFile) (used : Nat) (included : List String),
      included.length < maxFiles →
      (cm2SectionLoop budget maxFiles files used included).1 =
        included ++
          specSkipContinue wrapCost budget maxFiles files used included.length := by
  intro files
  induction files with
  | nil =>
    intro used included _
    simp [cm2SectionLoop, specSkipContinue]
  | cons f rest ih =>
    intro used included hlt
    by_cases hfit : used + wrapCost f > budget
    · have hL : cm2SectionLoop budget maxFiles (f :: rest) used included =
          cm2SectionLoop budget maxFiles rest used included := by
        simp only [cm2SectionLoop]
        rw [if_pos hfit]
      have hR : specSkipContinue wrapCost budget maxFiles (f :: rest) used
            included.length =
          specSkipContinue wrapCost budget maxFiles rest used included.length := by
        simp only [specSkipContinue]
        rw [if_neg (show ¬included.length ≥ maxFiles by omega),
          if_neg (show ¬used + wrapCost f ≤ budget by omega)]
      rw [hL, hR]
      exact ih used included hlt
    · have hL : cm2SectionLoop budget maxFiles (f :: rest) used included =
          (if (included ++ [f.path]).length ≥ maxFiles then
            (included ++ [f.path], used + wrapCost f)
          else
            cm2SectionLoop budget maxFiles rest (used + wrapCost f)
              (included ++ [f.path])) := by
        simp only [cm2SectionLoop]
        rw [if_neg hfit]
      have hR : specSkipContinue wrapCost budget maxFiles (f :: rest) used
            included.length =
          f.path :: specSkipContinue wrapCost budget maxFiles rest
            (used + wrapCost f) (included.length + 1) := by
        simp only [specSkipContinue]
        rw [if_neg (show ¬included.length ≥ maxFiles by omega),
          if_pos (show used + wrapCost f ≤ budget by omega)]
      rw [hL, hR]
      by_cases hcap : (included ++ [f.path]).length ≥ maxFiles
      · rw [if_pos hcap]
        have hstop : specSkipContinue wrapCost budget maxFiles rest (used + wrapCost f)
            (included.length + 1) = [] := by
          apply specSkipContinue_stop
          simpa using hcap
        rw [hstop]
        try simp
      · rw [if_neg hcap]
        have hlen : (included ++ [f.path]).length = included.length + 1 := by simp
        have hrec := ih (used + wrapCost f) (included ++ [f.path]) (by omega)
        rw [hrec, hlen]
        simp

/-- Every section cap of the skip-and-continue variant is at least one. -/
theorem getMaxFilesForSection_pos (sectionKey : String) :
    1 ≤ getMaxFilesForSection sectionKey := by
  simp only [getMaxFilesForSection]
  split_ifs <;> omega

set_option maxRecDepth 8000 in
/-- C1 as stated fails on the early-break variant of
`buildSectionContext`: with a prioritized list whose first file does not
fit the budget and whose second does, the loop at lines 577-597 includes
nothing (it breaks at the first file that does not fit), while the
behaviour the claim describes would include the second file. -/
theorem claim1_early_break_counterexample :
    (cm1SectionLoop 20 (cm1GetMaxFilesForSection "overview")
        [demoBigFile, demoSmallFile] 0 []).1 = [] ∧
    specSkipContinue cm1WrapTokens 20 (cm1GetMaxFilesForSection "overview")
        [demoBigFile, demoSmallFile] 0 0 = ["s"] ∧
    (cm1SectionLoop 20 (cm1GetMaxFilesForSection "overview")
        [demoBigFile, demoSmallFile] 0 []).1 ≠
      specSkipContinue cm1WrapTokens 20 (cm1GetMaxFilesForSection "overview")
        [demoBigFile, demoSmallFile] 0 0 := by
  exact ⟨by decide, by decide, by decide⟩

/-- C1 amended: the skip-and-continue variant of `buildSectionContext`
(lines 1499-1523) does realise the claimed policy — for every section key,
prioritized file list, token budget and initial token count, its included
files are exactly those of the spec policy (skip a non-fitting file and
continue, until the per-section cap binds or the list ends) — whereas the
variant at lines 577-597 stops at the first file that does not fit. -/
theorem claim1_skip_continue_policy (sectionKey : String) (files : List SectionFile)
    (budget used0 : Nat) :
    (cm2SectionLoop budget (getMaxFilesForSection sectionKey) files used0 []).1 =
      specSkipContinue wrapCost budget (getMaxFilesForSection sectionKey)
        files used0 0 := by
  have h := cm2SectionLoop_eq_spec budget (getMaxFilesForSection sectionKey) files used0 []
    (by simpa using getMaxFilesForSection_pos sectionKey)
  simpa using h

/-- Appending strings appends their character lists. -/
theorem string_data_append (a b : String) : (a ++ b).data = a.data ++ b.data := rfl

/-- C8: if the provider call throws during a generation pass, the pass
still produces the timestamped error-body markdown, the output file is
overwritten with it, and the watcher state is untouched — the error does
not escape the generation routine. -/
theorem claim8_provider_error_contained (w : World) (e timestamp : String)
    (outcome : Except String String) (h : outcome = .error e) :
    generateMarkdownResult outcome timestamp = errorDoc timestamp ∧
    jsContains (generateMarkdownResult outcome timestamp) timestamp ∧
    (writeMarkdownFile w outcome timestamp).outputFile = some (errorDoc timestamp) ∧
    (writeMarkdownFile w outcome timestamp).watcherActive = w.watcherActive := by
  subst h
  refine ⟨rfl, ?_, rfl, rfl⟩
  show timestamp.data <:+: (errorDoc timestamp).data
  refine ⟨("# Error Generating Project Documentation\n\nAn error occurred while generating the project documentation.\n\nTimestamp: " : String).data,
    ("\n\nPlease check your configuration and try again." : String).data, ?_⟩
  simp [errorDoc, string_data_append]

/-- Witness for C8 at a concrete provider failure. -/
theorem claim8_provider_error_contained_witness :
    generateMarkdownResult (.error "network error") "2024-01-01T00:00:00.000Z" =
      errorDoc "2024-01-01T00:00:00.000Z" ∧
    jsContains (generateMarkdownResult (.error "network error") "2024-01-01T00:00:00.000Z")
      "2024-01-01T00:00:00.000Z" ∧
    (writeMarkdownFile ⟨none, true⟩ (.error "network error")
      "2024-01-01T00:00:00.000Z").outputFile =
        some (errorDoc "2024-01-01T00:00:00.000Z") ∧
    (writeMarkdownFile ⟨none, true⟩ (.error "network error")
      "2024-01-01T00:00:00.000Z").watcherActive = (⟨none, true⟩ : World).watcherActive :=
  claim8_provider_error_contained ⟨none, true⟩ "network error"
    "2024-01-01T00:00:00.000Z" (.error "network error") rfl

set_option maxRecDepth 8000 in
/-- C6 as stated fails on the incremental branch of `generateMarkdown` in
`index.ts`: the prompt context it sends for an existing output document is
the package-metadata context alone — the existing document is read but no
excerpt of it (here the two-character document `QX`) appears in that
context, and no file contents are attached. -/
theorem claim6_incremental_prompt_counterexample :
    generateMarkdownPath false true = .incremental ∧
    generateMarkdownContext false true "full collected context" ⟨"", "", ""⟩ "" =
      metadataContext ⟨"", "", ""⟩ "" ∧
    jsIncludes (metadataContext ⟨"", "", ""⟩ "") (jsSubstringTo "QX" 1500) = false := by
  exact ⟨rfl, rfl, by decide⟩

/-- C6 amended: the stats-excerpt-similar-files revision prompt is the one
built by `ContextManager.buildIncrementalContext`: it contains the first
1500 characters of the existing document and the project statistics, and
its relevant files are the at-most-five similarity-ranked ones; the
`index.ts` dispatch does fall back to a full fresh collection when no
prior output exists, while its incremental branch sends only the metadata
context. -/
theorem claim6_incremental_revision (cwd existing stats : String)
    (allFiles : List SectionFile) :
    (getSimilarFiles allFiles existing 5).length ≤ 5 ∧
    jsContains
      (buildIncrementalContext cwd existing stats (getSimilarFiles allFiles existing 5))
      (jsSubstringTo existing 1500) ∧
    jsContains
      (buildIncrementalContext cwd existing stats (getSimilarFiles allFiles existing 5))
      stats ∧
    generateMarkdownPath false false = .fallbackFull ∧
    generateMarkdownPath false true = .incremental := by
  refine ⟨?_, ?_, ?_, rfl, rfl⟩
  · unfold getSimilarFiles getSimilarFilesCore
    cases mapSimilarity (generateSimpleEmbedding existing 128) allFiles with
    | error e => simp
    | ok withSim =>
      simp only [List.length_map, List.length_take]
      omega
  · show (jsSubstringTo existing 1500).data <:+:
      (buildIncrementalContext cwd existing stats (getSimilarFiles allFiles existing 5)).data
    refine ⟨(incrementalPre ++ "## EXISTING DOCUMENTATION (EXCERPT)\n\n").data,
      ("...\n\n" ++ "## PROJECT STATISTICS\n" ++ (stats ++ "\n\n") ++
        "## RELEVANT FILES FOR CONTEXT\n" ++
        (getSimilarFiles allFiles existing 5).foldl
          (fun acc f => acc ++ incrementalFileBlock cwd f) "" ++
        incrementalGuidelines).data, ?_⟩
    simp [buildIncrementalContext, string_data_append]
  · show stats.data <:+:
      (buildIncrementalContext cwd existing stats (getSimilarFiles allFiles existing 5)).data
    refine ⟨(incrementalPre ++ "## EXISTING DOCUMENTATION (EXCERPT)\n\n" ++
      (jsSubstringTo existing 1500 ++ "...\n\n") ++ "## PROJECT STATISTICS\n").data,
      ("\n\n" ++ "## RELEVANT FILES FOR CONTEXT\n" ++
        (getSimilarFiles allFiles existing 5).foldl
          (fun acc f => acc ++ incrementalFileBlock cwd f) "" ++
        incrementalGuidelines).data, ?_⟩
    simp [buildIncrementalContext, string_data_append]

/-- The index-update fold of the embedding preserves the vector length. -/
theorem embedFold_length (dimensions : Nat) :
    ∀ (cs : List Char) (p : Nat × List Float),
      ((cs.foldl
        (fun (p : Nat × List Float) c =>
          (p.1 + 1,
           p.2.set (p.1 % dimensions)
             (p.2.getD (p.1 % dimensions) 0.0 + Float.ofNat c.toNat / 1000.0)))
        p).2).length = p.2.length := by
  intro cs
  induction cs with
  | nil =>
    intro p
    rfl
  | cons c rest ih =>
    intro p
    rw [List.foldl_cons, ih]
    simp

/-- An if-then-else of two successful results is successful. -/
theorem ite_ok_isOk (c : Bool) (x y : Float) :
    (if c = true then (Except.ok x : Except String Float) else Except.ok y).isOk = true := by
  split <;> rfl

/-- C10: `cosineSimilarity` throws exactly when the vector lengths differ;
`generateSimpleEmbedding` always returns a vector of the requested width
(128 at every call site), so the similarity ranking inside
`getSimilarFiles` never reaches the error branch, for any query and any
file contents. -/
theorem claim10_similarity_never_throws :
    (∀ a b : List Float, a.length = b.length → (cosineSimilarity a b).isOk = true) ∧
    (∀ a b : List Float, a.length ≠ b.length →
      cosineSimilarity a b = .error "Vectors must be of same length") ∧
    (∀ (t : String) (d : Nat), (generateSimpleEmbedding t d).length = d) ∧
    (∀ (fs : List SectionFile) (q : String) (lim : Nat),
      (getSimilarFilesCore fs q lim).isOk = true) := by
  have hlen : ∀ (t : String) (d : Nat), (generateSimpleEmbedding t d).length = d := by
    intro t d
    unfold generateSimpleEmbedding
    simp only [List.length_map]
    rw [embedFold_length]
    simp
  have hok : ∀ a b : List Float, a.length = b.length →
      (cosineSimilarity a b).isOk = true := by
    intro a b h
    unfold cosineSimilarity
    rw [if_neg (by omega)]
    exact ite_ok_isOk _ _ _
  refine ⟨hok, ?_, hlen, ?_⟩
  · intro a b h
    unfold cosineSimilarity
    rw [if_pos h]
  · intro fs q lim
    have hmap : ∀ l : List SectionFile,
        (mapSimilarity (generateSimpleEmbedding q 128) l).isOk = true := by
      intro l
      induction l with
      | nil => simp [mapSimilarity, Except.isOk, Except.toBool]
      | cons f rest ih =>
        simp only [mapSimilarity]
        cases hcos : cosineSimilarity (generateSimpleEmbedding q 128)
            (generateSimpleEmbedding f.content 128) with
        | error e =>
          have hc := hok (generateSimpleEmbedding q 128)
            (generateSimpleEmbedding f.content 128) (by rw [hlen, hlen])
          rw [hcos] at hc
          simp [Except.isOk, Except.toBool] at hc
        | ok sim =>
          cases hrest : mapSimilarity (generateSimpleEmbedding q 128) rest with
          | error e =>
            rw [hrest] at ih
            simp [Except.isOk, Except.toBool] at ih
          | ok tail =>
            simp [Except.isOk, Except.toBool]
    unfold getSimilarFilesCore
    cases hm : mapSimilarity (generateSimpleEmbedding q 128) fs with
    | error e =>
      have hfs := hmap fs
      rw [hm] at hfs
      simp [Except.isOk, Except.toBool] at hfs
    | ok withSim =>
      simp [Except.isOk, Except.toBool]

/-- Witness for C10 at concrete vectors, a concrete text and a concrete
file list. -/
theorem claim10_similarity_never_throws_witness :
    ([0.5, 1.0] : List Float).length = ([2.0, 3.0] : List Float).length ∧
    (cosineSimilarity [0.5, 1.0] [2.0, 3.0]).isOk = true ∧
    ([] : List Float).length ≠ ([0.5] : List Float).length ∧
    cosineSimilarity [] [0.5] = .error "Vectors must be of same length" ∧
    (generateSimpleEmbedding "hello" 128).length = 128 ∧
    (getSimilarFilesCore [⟨"a.ts", "const x = 1"⟩] "query" 5).isOk = true :=
  ⟨by decide, claim10_similarity_never_throws.1 [0.5, 1.0] [2.0, 3.0] (by decide),
   by decide, claim10_similarity_never_throws.2.1 [] [0.5] (by decide),
   claim10_similarity_never_throws.2.2.1 "hello" 128,
   claim10_similarity_never_throws.2.2.2 [⟨"a.ts", "const x = 1"⟩] "query" 5⟩
